import Mathlib

/-!
Verification development for the PDF Renamer application
(`rename_pdfs.py`).  The definitions below are a shallow embedding of the
program's data model and operations: the Region Extractor
(`extract_text_from_rect`), the coordinate transform and drag handling
(`draw_ocr_rect`, `on_mouse_up`), configuration loading and saving
(`load_config`, `save_new_config`), the commit path (`on_ok_click`,
`write_log`) and the batch iteration (`process_next_pdf`).
-/

namespace PdfRenamer

/-! ## Region Extractor (`extract_text_from_rect`, lines 198-252)

The code OCRs the clipped region, then searches the recognized text for
the fixed pattern `\d{4}-\d{4}-\d{3}-\d{1}` (re.search: leftmost
occurrence); on a match it removes the hyphens from the matched substring
and seeds the filename field with the result, otherwise it seeds the
field with the empty string. -/

/-- Does the 15-character pattern `\d{4}-\d{4}-\d{3}-\d` match at the head
of the character list?  If so, return the matched characters. -/
def matchPatternAt : List Char → Option (List Char)
  | c1 :: c2 :: c3 :: c4 :: h1 :: c5 :: c6 :: c7 :: c8 :: h2 ::
      c9 :: c10 :: c11 :: h3 :: c12 :: _ =>
    if c1.isDigit && c2.isDigit && c3.isDigit && c4.isDigit && h1 = '-' &&
       c5.isDigit && c6.isDigit && c7.isDigit && c8.isDigit && h2 = '-' &&
       c9.isDigit && c10.isDigit && c11.isDigit && h3 = '-' && c12.isDigit
    then some [c1, c2, c3, c4, h1, c5, c6, c7, c8, h2, c9, c10, c11, h3, c12]
    else none
  | _ => none

/-- `re.search` for the fixed-length pattern: try each start position from
the left, return the first (leftmost) match. -/
def reSearch : List Char → Option (List Char)
  | [] => none
  | c :: cs =>
    match matchPatternAt (c :: cs) with
    | some m => some m
    | none => reSearch cs

/-- `str.replace('-', '')`: drop every hyphen. -/
def removeHyphens (cs : List Char) : List Char :=
  cs.filter (fun c => !(c == '-'))

/-- The candidate the extractor writes into the filename field, as a
function of the recognized text (step 3/4 of `extract_text_from_rect`):
the leftmost `\d{4}-\d{4}-\d{3}-\d` match with hyphens removed, or `""`
when there is no match. -/
def extractCandidate (text : String) : String :=
  match reSearch text.data with
  | some m => String.mk (removeHyphens m)
  | none => ""

/-- The candidate as the SPEC describes it (§4.2 step (b)): concatenate
every maximal run of decimal digits in reading order, discarding
everything else.  Stated for comparison with `extractCandidate`. -/
def specDigitConcat (text : String) : String :=
  String.mk (text.data.filter Char.isDigit)

/-! ## Coordinate transform (`draw_ocr_rect` lines 183-196, `on_mouse_up`
lines 308-328)

Coordinates are modelled over `ℚ` (the code computes with binary floats;
the claims are about the algebra of the transform, which is exact).
`draw_ocr_rect` maps a document coordinate to preview space as
`x * image_scale_factor + offset`; `on_mouse_up` maps a preview (canvas)
coordinate back as `(x - offset) / image_scale_factor`. -/

/-- Document space → preview space, per axis (`draw_ocr_rect`). -/
def toPreviewSpace (x scale offset : ℚ) : ℚ :=
  x * scale + offset

/-- Preview space → document space, per axis (`on_mouse_up`). -/
def toDocumentSpace (px scale offset : ℚ) : ℚ :=
  (px - offset) / scale

/-- A rectangle in document space, as built by `on_mouse_up`. -/
structure DocRect where
  x0 : ℚ
  y0 : ℚ
  x1 : ℚ
  y1 : ℚ
deriving DecidableEq

/-- The document-space rectangle computed by `on_mouse_up` from the drag
endpoints `(sx, sy)`/`(ex, ey)` (canvas pixels), the centering offsets,
the scale factor, and the page dimensions: per-axis min/max of the two
endpoints, transformed to document space, then clamped with
`max 0` below and `min pageDim` above. -/
def onMouseUpRect (sx sy ex ey offx offy scale pw ph : ℚ) : DocRect :=
  { x0 := max 0 ((min sx ex - offx) / scale)
    y0 := max 0 ((min sy ey - offy) / scale)
    x1 := min pw ((max sx ex - offx) / scale)
    y1 := min ph ((max sy ey - offy) / scale) }

/-- The property claimed of every drag result: normalized and inside
`[0, pw] × [0, ph]`. -/
def normalizedInBounds (r : DocRect) (pw ph : ℚ) : Prop :=
  r.x0 ≤ r.x1 ∧ r.y0 ≤ r.y1 ∧ 0 ≤ r.x0 ∧ 0 ≤ r.y0 ∧ r.x1 ≤ pw ∧ r.y1 ≤ ph

instance (r : DocRect) (pw ph : ℚ) : Decidable (normalizedInBounds r pw ph) := by
  unfold normalizedInBounds; infer_instance

/-- Python's `int()` applied to a rational: truncation toward zero
(`save_new_config` stores `str(int(v))` for each coordinate). -/
def pyInt (q : ℚ) : Int :=
  q.num.tdiv (q.den : Int)

/-! ## Persistence Store (`load_config` lines 52-64, `save_new_config`
lines 340-347)

A `configparser` configuration is a list of sections plus a list of
`(section, key, value)` entries (at most one entry per section/key pair
matters: lookups take the first).  `config.get`/`getint` fall back to a
default when the key is absent; `getint` fails on an unparsable value.
`config.set` requires the section to exist and replaces (or adds) the
key; `config.write` then rewrites the file with every section and entry
that was read — a merge-write. -/

structure ConfigFile where
  sections : List String
  entries : List (String × String × String)
deriving DecidableEq

/-- First value stored for `(sec, key)`, if any. -/
def lookupEntries (es : List (String × String × String)) (sec key : String) :
    Option String :=
  (es.find? (fun e => e.1 == sec && e.2.1 == key)).map (fun e => e.2.2)

def lookupCfg (cfg : ConfigFile) (sec key : String) : Option String :=
  lookupEntries cfg.entries sec key

/-- `config.get(sec, key, fallback=fb)`. -/
def getStrCfg (cfg : ConfigFile) (sec key fb : String) : String :=
  (lookupCfg cfg sec key).getD fb

/-- Decimal digits to a number, failing on a non-digit. -/
def parseDigits : List Char → Nat → Option Nat
  | [], acc => some acc
  | c :: cs, acc =>
    if c.isDigit then parseDigits cs (acc * 10 + (c.toNat - 48)) else none

/-- Python `int(s)` on a plain decimal string (optionally
minus-signed). -/
def parseInt? (s : String) : Option Int :=
  match s.data with
  | [] => none
  | '-' :: [] => none
  | '-' :: c :: cs => (parseDigits (c :: cs) 0).map (fun n => -(n : Int))
  | cs => (parseDigits cs 0).map (fun n => (n : Int))

/-- `config.getint(sec, key, fallback=fb)`: `none` models the
`ValueError` on an unparsable stored value. -/
def getIntCfg (cfg : ConfigFile) (sec key : String) (fb : Int) : Option Int :=
  match lookupCfg cfg sec key with
  | none => some fb
  | some v => parseInt? v

/-- The fields `load_config` reads (the OCR rectangle is then
`(x, y, x + width, y + height)`). -/
structure Settings where
  input_dir : String
  output_dir : String
  log_dir : String
  ocr_x : Int
  ocr_y : Int
  ocr_width : Int
  ocr_height : Int
deriving DecidableEq

/-- `load_config` (lines 52-64): reads the three `Paths` keys and the four
`OCR` keys, each with its documented fallback.  No other section or key
is consulted. -/
def loadConfig (cfg : ConfigFile) : Option Settings := do
  let x ← getIntCfg cfg "OCR" "x" 50
  let y ← getIntCfg cfg "OCR" "y" 50
  let w ← getIntCfg cfg "OCR" "width" 200
  let h ← getIntCfg cfg "OCR" "height" 50
  pure { input_dir := getStrCfg cfg "Paths" "input_dir" "pdf_input"
         output_dir := getStrCfg cfg "Paths" "output_dir" "pdf_output"
         log_dir := getStrCfg cfg "Paths" "log_dir" "log_output"
         ocr_x := x, ocr_y := y, ocr_width := w, ocr_height := h }

/-- `config.set(sec, key, val)` on the entry list: replace the first
existing `(sec, key)` entry, or append the key to the section. -/
def setEntry : List (String × String × String) → String → String → String →
    List (String × String × String)
  | [], sec, key, val => [(sec, key, val)]
  | e :: es, sec, key, val =>
    if e.1 == sec && e.2.1 == key then (sec, key, val) :: es
    else e :: setEntry es sec key val

/-- `config.set` raises `NoSectionError` when the section is absent. -/
def setKeyCfg (cfg : ConfigFile) (sec key val : String) : Option ConfigFile :=
  if cfg.sections.contains sec then
    some { cfg with entries := setEntry cfg.entries sec key val }
  else none

/-- `save_new_config(x, y, w, h)` (lines 340-347): set the four `OCR`
keys to `str(int(·))` of the arguments and rewrite the whole
configuration. -/
def saveNewConfig (cfg : ConfigFile) (x y w h : ℚ) : Option ConfigFile := do
  let c1 ← setKeyCfg cfg "OCR" "x" (toString (pyInt x))
  let c2 ← setKeyCfg c1 "OCR" "y" (toString (pyInt y))
  let c3 ← setKeyCfg c2 "OCR" "width" (toString (pyInt w))
  let c4 ← setKeyCfg c3 "OCR" "height" (toString (pyInt h))
  pure c4

/-! ## Commit path (`on_ok_click` lines 254-277, `write_log` lines
279-282)

The pipeline state carries the output directory contents, the log files
(as lists of lines), and the batch cursor.  `on_ok_click` is modelled on
its successful control path: exiting selection mode, the empty/marker
precondition, the overwrite prompt, then `shutil.copy2` + `write_log` +
cursor advance. -/

/-- Python `str.strip()`. -/
def strip (s : String) : String :=
  String.mk
    (((s.data.dropWhile Char.isWhitespace).reverse.dropWhile
      Char.isWhitespace).reverse)

/-- `s.startswith("(")` — the invalid-marker prefix test. -/
def startsWithParen (s : String) : Bool :=
  match s.data with
  | c :: _ => c == '('
  | [] => false

/-- Zero-padded decimal of width `w` (as `strftime` does). -/
def padNum (w n : Nat) : String :=
  String.mk (List.replicate (w - (toString n).length) '0') ++ toString n

/-- `datetime.date.today().strftime('%Y%m%d')`. -/
def dateStamp (y m d : Nat) : String :=
  padNum 4 y ++ padNum 2 m ++ padNum 2 d

/-- Inputs of a single `on_ok_click` invocation that the code reads. -/
structure CommitCtx where
  selectionMode : Bool
  fieldText : String
  outputDir : String
  logDir : String
  srcContent : List Nat
  userConfirmsOverwrite : Bool
  todayY : Nat
  todayM : Nat
  todayD : Nat

/-- Mutable state the commit path touches. -/
structure PipeState where
  outputFiles : String → Option (List Nat)
  logFiles : String → Option (List String)
  index : Nat

def targetPath (ctx : CommitCtx) : String :=
  ctx.outputDir ++ "/" ++ strip ctx.fieldText ++ ".pdf"

def logPathOf (ctx : CommitCtx) : String :=
  ctx.logDir ++ "/" ++ dateStamp ctx.todayY ctx.todayM ctx.todayD ++ ".txt"

/-- `on_ok_click`: in selection mode it only toggles the mode (no
pipeline change); an empty trimmed field or a `"("`-prefixed field warns
and returns; an existing target with a declined overwrite returns;
otherwise `shutil.copy2` writes the source bytes to the target,
`write_log` appends one line to today's log file, and the cursor
advances. -/
def onOkClick (ctx : CommitCtx) (st : PipeState) : PipeState :=
  if ctx.selectionMode then st
  else if strip ctx.fieldText = "" ∨ startsWithParen (strip ctx.fieldText) = true then st
  else if (st.outputFiles (targetPath ctx)).isSome = true ∧
          ctx.userConfirmsOverwrite = false then st
  else
    { outputFiles := fun p =>
        if p = targetPath ctx then some ctx.srcContent else st.outputFiles p
      logFiles := fun p =>
        if p = logPathOf ctx then
          some ((st.logFiles p).getD [] ++ [strip ctx.fieldText])
        else st.logFiles p
      index := st.index + 1 }

/-! ## Extraction as a state transition (`extract_text_from_rect` lines
198-252)

Besides seeding the filename field with `extractCandidate` of the
recognized text, `extract_text_from_rect` saves the binarized clip image
to `ocr_get_image/<pdf basename>.png` (lines 216-225) on every run.  The
rendered image and the recognized text are functions of the document and
the rectangle (black-box collaborators), passed in as an environment. -/

def ocrImageDir : String := "ocr_get_image"

def debugImagePath (name : String) : String :=
  ocrImageDir ++ "/" ++ name ++ ".png"

/-- What the black-box collaborators give back for the current document
and rectangle. -/
structure ExtractEnv where
  pdfName : String
  bwImage : List Nat
  recText : String

/-- One run of `extract_text_from_rect`: the new image-directory
contents and the candidate written into the filename field. -/
def extractTextFromRect (env : ExtractEnv)
    (images : String → Option (List Nat)) :
    (String → Option (List Nat)) × String :=
  (fun p => if p = debugImagePath env.pdfName then some env.bwImage else images p,
   extractCandidate env.recText)

/-! ## Batch iteration (`process_next_pdf` lines 130-162)

`process_next_pdf` at cursor `i`: past the end it reports completion and
quits; otherwise it opens document `i`, renders it and extracts — on any
exception it reports the error, advances the cursor and recurses;
on success it stays displaying document `i`.  Per-document behaviour of
the black-box collaborators is an oracle `docs : Nat → DocInfo`. -/

structure DocInfo where
  opensOk : Bool
  name : String
  bwImage : List Nat
  recText : String

structure BatchState where
  outputFiles : String → Option (List Nat)
  logFiles : String → Option (List String)
  imageFiles : String → Option (List Nat)
  index : Nat
  reported : List Nat
  field : String
  display : Option Nat

def processNextPdf (docs : Nat → DocInfo) (n : Nat) (st : BatchState) :
    BatchState :=
  if n ≤ st.index then { st with display := none }
  else
    let d := docs st.index
    if d.opensOk then
      { st with
          imageFiles := fun p =>
            if p = debugImagePath d.name then some d.bwImage else st.imageFiles p
          field := extractCandidate d.recText
          display := some st.index }
    else
      processNextPdf docs n
        { st with index := st.index + 1, reported := st.reported ++ [st.index] }
termination_by n - st.index
decreasing_by simp_wf; omega

/-! ## Calibration release (`on_mouse_up` lines 308-338)

On mouse release during calibration the code (1) builds the clamped
document-space rectangle, (2) re-runs extraction with it, (3) persists it
through `save_new_config`, and (4) exits selection mode.  The recognized
text is a function of the clip rectangle (black-box OCR). -/

structure CalibEnv where
  startX : ℚ
  startY : ℚ
  endX : ℚ
  endY : ℚ
  offX : ℚ
  offY : ℚ
  scale : ℚ
  pageW : ℚ
  pageH : ℚ
  recText : DocRect → String
  cfg : ConfigFile

def calibRect (env : CalibEnv) : DocRect :=
  onMouseUpRect env.startX env.startY env.endX env.endY
    env.offX env.offY env.scale env.pageW env.pageH

/-- The observable result of `on_mouse_up`: the new rectangle, the
re-extracted candidate, and the persisted configuration (`none` only when
`config.set` fails for a missing `OCR` section). -/
def onMouseUp (env : CalibEnv) : Option (DocRect × String × ConfigFile) := do
  let r := calibRect env
  let cfg' ← saveNewConfig env.cfg r.x0 r.y0 (r.x1 - r.x0) (r.y1 - r.y0)
  pure (r, extractCandidate (env.recText r), cfg')

/-! ## Concrete inputs used by the witnesses and counterexamples -/

/-- An empty pipeline state. -/
def emptyPipe : PipeState :=
  { outputFiles := fun _ => none, logFiles := fun _ => none, index := 0 }

/-- A commit of `"555"` for a three-byte source document. -/
def commit555 : CommitCtx :=
  { selectionMode := false, fieldText := "555", outputDir := "pdf_output"
    logDir := "log_output", srcContent := [1, 2, 3]
    userConfirmsOverwrite := false, todayY := 2026, todayM := 10, todayD := 12 }

/-- A commit attempt whose trimmed field is empty. -/
def commitBlank : CommitCtx :=
  { selectionMode := false, fieldText := "  ", outputDir := "pdf_output"
    logDir := "log_output", srcContent := [1, 2, 3]
    userConfirmsOverwrite := true, todayY := 2026, todayM := 10, todayD := 12 }

/-- A configuration holding all three sections, with `Filter digits`
set to the given value. -/
def cfgWithFilter (v : String) : ConfigFile :=
  { sections := ["Paths", "OCR", "Filter"]
    entries :=
      [("Paths", "input_dir", "pdf_input"), ("Paths", "output_dir", "pdf_output"),
       ("Paths", "log_dir", "log_output"), ("OCR", "x", "50"), ("OCR", "y", "50"),
       ("OCR", "width", "200"), ("OCR", "height", "50"), ("Filter", "digits", v)] }

/-- Appending a `Filter` section with a `digits` value to an arbitrary
configuration (the shape the spec's DigitFilter would live in). -/
def addFilterDigits (cfg : ConfigFile) (v : String) : ConfigFile :=
  { sections := cfg.sections ++ ["Filter"]
    entries := cfg.entries ++ [("Filter", "digits", v)] }

/-- An extraction environment for a document with no digits in its
region. -/
def envNoDigits : ExtractEnv :=
  { pdfName := "doc1", bwImage := [7, 7], recText := "No digits" }

/-- Calibration drag from (10,10) to (110,60) at scale 1 with zero
offsets on a 200×100 page: the spec's recalibration example. -/
def calibExample : CalibEnv :=
  { startX := 10, startY := 10, endX := 110, endY := 60
    offX := 0, offY := 0, scale := 1, pageW := 200, pageH := 100
    recText := fun _ => "1234-5678-901-2", cfg := cfgWithFilter "3" }

/-- A two-document batch whose first document fails to open. -/
def docsFirstBad : Nat → DocInfo :=
  fun i =>
    if i = 0 then { opensOk := false, name := "a", bwImage := [], recText := "" }
    else { opensOk := true, name := "b", bwImage := [5], recText := "1234-5678-901-2" }

/-- An initial batch state. -/
def emptyBatch : BatchState :=
  { outputFiles := fun _ => none, logFiles := fun _ => none
    imageFiles := fun _ => none, index := 0, reported := [], field := ""
    display := none }

/-! ## Helper lemmas -/

lemma digit_ne_hyphen {c : Char} (h : c.isDigit = true) : c ≠ '-' := by
  intro he; subst he; exact absurd h (by decide)

lemma digit_beq_hyphen {c : Char} (h : c.isDigit = true) : (c == '-') = false :=
  beq_eq_false_iff_ne.mpr (digit_ne_hyphen h)

lemma digit_beq_paren {c : Char} (h : c.isDigit = true) : (c == '(') = false := by
  refine beq_eq_false_iff_ne.mpr ?_
  intro he; subst he; exact absurd h (by decide)

lemma digit_not_whitespace {c : Char} (h : c.isDigit = true) :
    c.isWhitespace = false := by
  cases hw : c.isWhitespace with
  | false => rfl
  | true =>
    exfalso
    simp only [Char.isWhitespace, Bool.or_eq_true, decide_eq_true_eq] at hw
    rcases hw with ((h' | h') | h') | h' <;> subst h' <;>
      exact absurd h (by decide)

/-- A 4-4-3-1 match, stripped of its hyphens, is twelve digit characters. -/
lemma matchPatternAt_digits {cs m : List Char} (h : matchPatternAt cs = some m) :
    ∃ d1 d2 d3 d4 d5 d6 d7 d8 d9 d10 d11 d12 : Char,
      removeHyphens m = [d1, d2, d3, d4, d5, d6, d7, d8, d9, d10, d11, d12] ∧
      ∀ c ∈ removeHyphens m, c.isDigit = true := by
  unfold matchPatternAt at h
  split at h
  · rename_i x1 x2 x3 x4 s1 x5 x6 x7 x8 s2 x9 x10 x11 s3 x12 tl
    split at h
    · rename_i hcond
      injection h with hm
      subst hm
      simp only [Bool.and_eq_true, decide_eq_true_eq] at hcond
      obtain ⟨⟨⟨⟨⟨⟨⟨⟨⟨⟨⟨⟨⟨⟨hd1, hd2⟩, hd3⟩, hd4⟩, hs1⟩, hd5⟩, hd6⟩, hd7⟩, hd8⟩,
        hs2⟩, hd9⟩, hd10⟩, hd11⟩, hs3⟩, hd12⟩ := hcond
      subst hs1; subst hs2; subst hs3
      have hrw : removeHyphens
          [x1, x2, x3, x4, '-', x5, x6, x7, x8, '-', x9, x10, x11, '-', x12] =
          [x1, x2, x3, x4, x5, x6, x7, x8, x9, x10, x11, x12] := by
        simp [removeHyphens, List.filter_cons, digit_beq_hyphen hd1,
          digit_beq_hyphen hd2, digit_beq_hyphen hd3, digit_beq_hyphen hd4,
          digit_beq_hyphen hd5, digit_beq_hyphen hd6, digit_beq_hyphen hd7,
          digit_beq_hyphen hd8, digit_beq_hyphen hd9, digit_beq_hyphen hd10,
          digit_beq_hyphen hd11, digit_beq_hyphen hd12]
      refine ⟨x1, x2, x3, x4, x5, x6, x7, x8, x9, x10, x11, x12, hrw, ?_⟩
      rw [hrw]
      intro c hc
      simp only [List.mem_cons, List.not_mem_nil, or_false] at hc
      rcases hc with h' | h' | h' | h' | h' | h' | h' | h' | h' | h' | h' | h' <;>
        subst h' <;> assumption
    · exact absurd h (by simp)
  · exact absurd h (by simp)

lemma reSearch_cons (c : Char) (cs : List Char) :
    reSearch (c :: cs) =
      match matchPatternAt (c :: cs) with
      | some m => some m
      | none => reSearch cs := rfl

/-- `re.search` finds nothing exactly when the pattern matches at no
start position. -/
lemma reSearch_eq_none_iff (cs : List Char) :
    reSearch cs = none ↔ ∀ i, matchPatternAt (cs.drop i) = none := by
  induction cs with
  | nil => simp [reSearch, matchPatternAt]
  | cons c cs ih =>
    constructor
    · intro h i
      rw [reSearch_cons] at h
      cases hm : matchPatternAt (c :: cs) with
      | some m => rw [hm] at h; exact absurd h (by simp)
      | none =>
        rw [hm] at h
        cases i with
        | zero => exact hm
        | succ i => rw [List.drop_succ_cons]; exact (ih.mp h) i
    · intro h
      have h0 := h 0
      rw [List.drop_zero] at h0
      rw [reSearch_cons, h0]
      exact ih.mpr (fun i => by have := h (i + 1); rwa [List.drop_succ_cons] at this)

/-- What `re.search` returns is the match at the least start position. -/
lemma reSearch_eq_some (cs m : List Char) (h : reSearch cs = some m) :
    ∃ i, matchPatternAt (cs.drop i) = some m ∧
      ∀ j < i, matchPatternAt (cs.drop j) = none := by
  induction cs with
  | nil => exact absurd h (by simp [reSearch])
  | cons c cs ih =>
    rw [reSearch_cons] at h
    cases hm : matchPatternAt (c :: cs) with
    | some m' =>
      rw [hm] at h
      refine ⟨0, ?_, ?_⟩
      · rw [List.drop_zero, hm]; exact h
      · intro j hj; omega
    | none =>
      rw [hm] at h
      obtain ⟨i, h1, h2⟩ := ih h
      refine ⟨i + 1, by rwa [List.drop_succ_cons], ?_⟩
      intro j hj
      cases j with
      | zero => exact hm
      | succ j => rw [List.drop_succ_cons]; exact h2 j (by omega)

lemma dropWhile_of_all {p : Char → Bool} (l : List Char)
    (h : ∀ c ∈ l, p c = false) : l.dropWhile p = l := by
  cases l with
  | nil => rfl
  | cons c cs => rw [List.dropWhile_cons, h c (by simp)]; simp

/-- `strip` leaves a whitespace-free string alone. -/
lemma strip_of_no_whitespace (l : List Char)
    (h : ∀ c ∈ l, c.isWhitespace = false) :
    strip (String.mk l) = String.mk l := by
  unfold strip
  rw [show (String.mk l).data = l from rfl]
  rw [dropWhile_of_all l h]
  rw [dropWhile_of_all l.reverse (fun c hc => h c (List.mem_reverse.mp hc))]
  rw [List.reverse_reverse]

/-- Everything C10 needs about a non-empty candidate, in list form. -/
lemma extractCandidate_shape (t : String) (h : extractCandidate t ≠ "") :
    ∃ ds : List Char, extractCandidate t = String.mk ds ∧
      ds.length = 12 ∧ (∀ c ∈ ds, c.isDigit = true) := by
  unfold extractCandidate at h ⊢
  cases hs : reSearch t.data with
  | none => rw [hs] at h; exact absurd rfl h
  | some m =>
    obtain ⟨i, hi, -⟩ := reSearch_eq_some t.data m hs
    obtain ⟨d1, d2, d3, d4, d5, d6, d7, d8, d9, d10, d11, d12, hrw, hdig⟩ :=
      matchPatternAt_digits hi
    exact ⟨removeHyphens m, rfl, by rw [hrw]; rfl, hdig⟩

/-- Setting a key makes it present with the new value. -/
lemma lookupEntries_setEntry_same (es : List (String × String × String))
    (sec key val : String) :
    lookupEntries (setEntry es sec key val) sec key = some val := by
  induction es with
  | nil => simp [setEntry, lookupEntries, List.find?_cons]
  | cons e es ih =>
    cases hc : (e.1 == sec && e.2.1 == key) with
    | true => simp [setEntry, hc, lookupEntries, List.find?_cons]
    | false =>
      rw [setEntry, if_neg (by rw [hc]; simp)]
      simp only [lookupEntries, List.find?_cons, hc]
      exact ih

/-- Setting a key leaves every other (section, key) lookup unchanged. -/
lemma lookupEntries_setEntry_other (es : List (String × String × String))
    (sec key val sec' key' : String) (h : ¬(sec' = sec ∧ key' = key)) :
    lookupEntries (setEntry es sec key val) sec' key' =
      lookupEntries es sec' key' := by
  have hcond : ((sec : String) == sec' && (key : String) == key') = false := by
    by_cases h1 : sec = sec'
    · subst h1
      have h2 : key ≠ key' := fun hk => h ⟨rfl, hk.symm⟩
      simp [beq_eq_false_iff_ne.mpr h2]
    · simp [beq_eq_false_iff_ne.mpr h1]
  induction es with
  | nil => simp [setEntry, lookupEntries, List.find?_cons, hcond]
  | cons e es ih =>
    cases hc : (e.1 == sec && e.2.1 == key) with
    | true =>
      rw [setEntry, if_pos (by rw [hc])]
      simp only [Bool.and_eq_true, beq_iff_eq] at hc
      obtain ⟨he1, he2⟩ := hc
      simp only [lookupEntries, List.find?_cons]
      rw [show ((sec, key, val).1 == sec' && (sec, key, val).2.1 == key') = false
          from hcond]
      rw [show (e.1 == sec' && e.2.1 == key') = false by rw [he1, he2]; exact hcond]
    | false =>
      rw [setEntry, if_neg (by rw [hc]; simp)]
      simp only [lookupEntries, List.find?_cons] at ih ⊢
      cases hce : (e.1 == sec' && e.2.1 == key') with
      | true => simp [hce]
      | false => simp only [hce]; exact ih

/-- Appending a `Filter` section entry changes no `Paths`/`OCR` lookup. -/
lemma lookupEntries_append_filter (es : List (String × String × String))
    (sec key v : String) (h : sec ≠ "Filter") :
    lookupEntries (es ++ [("Filter", "digits", v)]) sec key =
      lookupEntries es sec key := by
  unfold lookupEntries
  rw [List.find?_append]
  cases hf : es.find? (fun e => e.1 == sec && e.2.1 == key) with
  | some e => simp
  | none =>
    simp only [Option.none_or]
    have hb : (("Filter" : String) == sec) = false :=
      beq_eq_false_iff_ne.mpr (Ne.symm h)
    simp [List.find?_cons, hb]

/-- `process_next_pdf` touches neither the output directory nor the log. -/
lemma processNextPdf_frame (docs : Nat → DocInfo) (n : Nat) :
    ∀ k st, n - st.index ≤ k →
      (processNextPdf docs n st).outputFiles = st.outputFiles ∧
      (processNextPdf docs n st).logFiles = st.logFiles := by
  intro k
  induction k with
  | zero =>
    intro st hk
    rw [processNextPdf, if_pos (by omega)]
    exact ⟨rfl, rfl⟩
  | succ k ih =>
    intro st hk
    rw [processNextPdf]
    by_cases hn : n ≤ st.index
    · rw [if_pos hn]; exact ⟨rfl, rfl⟩
    · rw [if_neg hn]
      dsimp only
      cases ho : (docs st.index).opensOk with
      | true => simp [ho]
      | false =>
        simp only [ho, Bool.false_eq_true, if_false]
        exact ih _ (show n - (st.index + 1) ≤ k by omega)

/-- The reported-error list only ever grows. -/
lemma processNextPdf_reported (docs : Nat → DocInfo) (n : Nat) :
    ∀ k st, n - st.index ≤ k →
      ∃ l, (processNextPdf docs n st).reported = st.reported ++ l := by
  intro k
  induction k with
  | zero =>
    intro st hk
    rw [processNextPdf, if_pos (by omega)]
    exact ⟨[], by simp⟩
  | succ k ih =>
    intro st hk
    rw [processNextPdf]
    by_cases hn : n ≤ st.index
    · rw [if_pos hn]; exact ⟨[], by simp⟩
    · rw [if_neg hn]
      dsimp only
      cases ho : (docs st.index).opensOk with
      | true => simp [ho]
      | false =>
        simp only [ho, Bool.false_eq_true, if_false]
        obtain ⟨l, hl⟩ :=
          ih { st with index := st.index + 1, reported := st.reported ++ [st.index] }
            (show n - (st.index + 1) ≤ k by omega)
        exact ⟨[st.index] ++ l, by rw [hl]; simp⟩

/-! ## Claim theorems -/

/-- Claim C1, counterexample: on recognized text `"No. 12-3456  AB"` the
code's candidate is `""`, not the digit-run concatenation `"123456"` the
claim states — the extractor searches for the fixed 4-4-3-1 hyphenated
pattern instead of concatenating digit runs. -/
theorem extract_candidate_not_digit_concat :
    specDigitConcat "No. 12-3456  AB" = "123456" ∧
    extractCandidate "No. 12-3456  AB" = "" ∧
    extractCandidate "No. 12-3456  AB" ≠ specDigitConcat "No. 12-3456  AB" := by
  decide

/-- Claim C1, amended: for every recognized-text input the candidate is
the leftmost occurrence of the pattern `\d{4}-\d{4}-\d{3}-\d` with its
hyphens removed, or the empty string when the pattern does not occur; in
particular `"No. 12-3456  AB"` yields `""`. -/
theorem extract_candidate_leftmost_pattern :
    extractCandidate "No. 12-3456  AB" = "" ∧
    ∀ t : String,
      ((∀ i, matchPatternAt (t.data.drop i) = none) ∧ extractCandidate t = "") ∨
      (∃ i m, matchPatternAt (t.data.drop i) = some m ∧
        (∀ j < i, matchPatternAt (t.data.drop j) = none) ∧
        extractCandidate t = String.mk (removeHyphens m)) := by
  refine ⟨by decide, fun t => ?_⟩
  cases hs : reSearch t.data with
  | none =>
    exact Or.inl ⟨(reSearch_eq_none_iff t.data).mp hs,
      by unfold extractCandidate; rw [hs]⟩
  | some m =>
    obtain ⟨i, h1, h2⟩ := reSearch_eq_some t.data m hs
    exact Or.inr ⟨i, m, h1, h2, by unfold extractCandidate; rw [hs]⟩

/-- Claim C2, counterexample: a drag whose endpoints both map left/above
the page (canvas points (0,0) and (2,2) with centering offset 5 and scale
1 on a 100×100 page) yields document coordinates −5 and −3; after the
per-axis clamp the rectangle has x0 = 0 > x1 = −3, so it is neither
normalized nor inside `[0, pageWidth] × [0, pageHeight]`. -/
theorem clamp_denormalizes_offpage_drag :
    ¬ normalizedInBounds (onMouseUpRect 0 0 2 2 5 5 1 100 100) 100 100 := by
  norm_num [normalizedInBounds, onMouseUpRect, min_def, max_def]

/-- Claim C2, amended: for any two drag endpoints, with a positive scale
factor and whenever the drag's document-space span overlaps the page band
on each axis (its min is at most the page dimension, its max at least 0),
the clamped rectangle satisfies x0 ≤ x1 and y0 ≤ y1 and lies within
`[0, pageWidth] × [0, pageHeight]`; a drag entirely outside the page can
produce an inverted rectangle. -/
theorem clamped_rect_normalized_of_overlap
    (sx sy ex ey offx offy scale pw ph : ℚ)
    (hs : 0 < scale) (hpw : 0 ≤ pw) (hph : 0 ≤ ph)
    (hxlo : (min sx ex - offx) / scale ≤ pw)
    (hxhi : 0 ≤ (max sx ex - offx) / scale)
    (hylo : (min sy ey - offy) / scale ≤ ph)
    (hyhi : 0 ≤ (max sy ey - offy) / scale) :
    normalizedInBounds (onMouseUpRect sx sy ex ey offx offy scale pw ph) pw ph := by
  have hxmm : (min sx ex - offx) / scale ≤ (max sx ex - offx) / scale :=
    (div_le_div_iff_of_pos_right hs).mpr (sub_le_sub_right min_le_max _)
  have hymm : (min sy ey - offy) / scale ≤ (max sy ey - offy) / scale :=
    (div_le_div_iff_of_pos_right hs).mpr (sub_le_sub_right min_le_max _)
  unfold normalizedInBounds onMouseUpRect
  refine ⟨?_, ?_, ?_, ?_, ?_, ?_⟩
  · exact le_min (max_le hpw hxlo) (max_le hxhi hxmm)
  · exact le_min (max_le hph hylo) (max_le hyhi hymm)
  · exact le_max_left 0 _
  · exact le_max_left 0 _
  · exact min_le_left _ _
  · exact min_le_left _ _

/-- Witness for C2's amended theorem: drag (0,0)→(100,50) at scale 1,
offsets 0, on a 200×100 page. -/
theorem clamped_rect_normalized_witness :
    normalizedInBounds (onMouseUpRect 0 0 100 50 0 0 1 200 100) 200 100 :=
  clamped_rect_normalized_of_overlap 0 0 100 50 0 0 1 200 100
    (by norm_num) (by norm_num) (by norm_num) (by norm_num [min_def])
    (by norm_num [max_def]) (by norm_num [min_def]) (by norm_num [max_def])

/-- Claim C3, counterexample: the loaded settings are identical whether
the configuration says `Filter digits = 7` or `Filter digits = 0` — no
digit filter is read — and the all-digit recognized text `"1234567"`
(whose digit-run candidate would be the 7-digit string `"1234567"`)
yields the empty candidate, not a candidate judged valid for N = 7 or
surfaced as valid for N = 0. -/
theorem no_digit_filter_counterexample :
    loadConfig (cfgWithFilter "7") = loadConfig (cfgWithFilter "0") ∧
    specDigitConcat "1234567" = "1234567" ∧
    extractCandidate "1234567" = "" := by
  decide

/-- Claim C3, amended: the code loads no digit filter — adding a `Filter`
section with any `digits` value to the configuration leaves `load_config`'s
result unchanged, the documented fallbacks apply to the seven keys it does
read — and the extractor enforces a fixed shape instead: every non-empty
candidate has exactly 12 characters. -/
theorem load_config_ignores_filter :
    (∀ (cfg : ConfigFile) (v : String),
      loadConfig (addFilterDigits cfg v) = loadConfig cfg) ∧
    loadConfig { sections := [], entries := [] } =
      some { input_dir := "pdf_input", output_dir := "pdf_output",
             log_dir := "log_output", ocr_x := 50, ocr_y := 50,
             ocr_width := 200, ocr_height := 50 } ∧
    ∀ t : String, extractCandidate t = "" ∨ (extractCandidate t).length = 12 := by
  refine ⟨?_, by decide, ?_⟩
  · intro cfg v
    have hO : ∀ key, lookupEntries (cfg.entries ++ [("Filter", "digits", v)])
        "OCR" key = lookupEntries cfg.entries "OCR" key :=
      fun key => lookupEntries_append_filter _ _ _ _ (by decide)
    have hP : ∀ key, lookupEntries (cfg.entries ++ [("Filter", "digits", v)])
        "Paths" key = lookupEntries cfg.entries "Paths" key :=
      fun key => lookupEntries_append_filter _ _ _ _ (by decide)
    simp only [loadConfig, addFilterDigits, getIntCfg, getStrCfg, lookupCfg, hO, hP]
  · intro t
    by_cases h : extractCandidate t = ""
    · exact Or.inl h
    · obtain ⟨ds, hds, hlen, -⟩ := extractCandidate_shape t h
      exact Or.inr (by rw [hds]; exact hlen)

/-- Claim C9: for every point, every positive scale factor and every
offset, mapping to preview space and back to document space returns the
point (the model is exact over ℚ, so "within floating-point tolerance"
holds as equality). -/
theorem preview_doc_roundtrip (p scale offset : ℚ) (h : 0 < scale) :
    toDocumentSpace (toPreviewSpace p scale offset) scale offset = p := by
  unfold toDocumentSpace toPreviewSpace
  field_simp

/-- Witness for C9 at p = 7, scale = 2, offset = 3. -/
theorem preview_doc_roundtrip_witness :
    toDocumentSpace (toPreviewSpace 7 2 3) 2 3 = 7 :=
  preview_doc_roundtrip 7 2 3 (by norm_num)

/-- Claim C10: the candidate seeded into the filename field is either
empty or exactly 12 decimal digits; consequently a non-empty candidate is
all digits, is its own trim, and never begins with the invalid-marker
prefix `"("` — it always passes the commit precondition's prefix test. -/
theorem candidate_shape_invariant (t : String) :
    extractCandidate t = "" ∨
    ((extractCandidate t).length = 12 ∧
     (∀ c ∈ (extractCandidate t).data, c.isDigit = true) ∧
     strip (extractCandidate t) = extractCandidate t ∧
     startsWithParen (extractCandidate t) = false) := by
  by_cases h : extractCandidate t = ""
  · exact Or.inl h
  · right
    obtain ⟨ds, hds, hlen, hdig⟩ := extractCandidate_shape t h
    refine ⟨by rw [hds]; exact hlen, by rw [hds]; exact hdig, ?_, ?_⟩
    · rw [hds]
      exact strip_of_no_whitespace ds (fun c hc => digit_not_whitespace (hdig c hc))
    · rw [hds]
      cases ds with
      | nil => exact absurd hlen (by simp)
      | cons c cs =>
        show (c == '(') = false
        exact digit_beq_paren (hdig c (by simp))

/-- Claim C4: a successful commit (not in selection mode, non-empty
trimmed field without the marker prefix, and no conflict or a confirmed
overwrite) writes exactly one output file `outputDir/s.pdf` holding the
source bytes, appends exactly one line `s` to today's `YYYYMMDD` log file
without touching its prior lines or any other file, and advances the
cursor from i to i+1. -/
theorem commit_success_effects (ctx : CommitCtx) (st : PipeState)
    (hsel : ctx.selectionMode = false)
    (hne : strip ctx.fieldText ≠ "")
    (hpar : startsWithParen (strip ctx.fieldText) = false)
    (hok : st.outputFiles (targetPath ctx) = none ∨
      ctx.userConfirmsOverwrite = true) :
    (onOkClick ctx st).outputFiles (targetPath ctx) = some ctx.srcContent ∧
    (∀ p, p ≠ targetPath ctx →
      (onOkClick ctx st).outputFiles p = st.outputFiles p) ∧
    (onOkClick ctx st).logFiles (logPathOf ctx) =
      some ((st.logFiles (logPathOf ctx)).getD [] ++ [strip ctx.fieldText]) ∧
    (∀ p, p ≠ logPathOf ctx →
      (onOkClick ctx st).logFiles p = st.logFiles p) ∧
    (onOkClick ctx st).index = st.index + 1 := by
  have hc1 : ¬(strip ctx.fieldText = "" ∨
      startsWithParen (strip ctx.fieldText) = true) := by
    rintro (h | h)
    · exact hne h
    · rw [hpar] at h; exact absurd h (by simp)
  have hc2 : ¬((st.outputFiles (targetPath ctx)).isSome = true ∧
      ctx.userConfirmsOverwrite = false) := by
    rintro ⟨h1, h2⟩
    rcases hok with h | h
    · rw [h] at h1; exact absurd h1 (by simp)
    · rw [h] at h2; exact absurd h2 (by simp)
  unfold onOkClick
  simp only [hsel, Bool.false_eq_true, if_false]
  rw [if_neg hc1, if_neg hc2]
  exact ⟨by simp, fun p hp => by simp [hp], by simp, fun p hp => by simp [hp], rfl⟩

/-- Witness for C4: committing `"555"` from an empty pipeline state. -/
theorem commit_success_effects_witness :
    (onOkClick commit555 emptyPipe).outputFiles (targetPath commit555) =
      some commit555.srcContent ∧
    (∀ p, p ≠ targetPath commit555 →
      (onOkClick commit555 emptyPipe).outputFiles p = emptyPipe.outputFiles p) ∧
    (onOkClick commit555 emptyPipe).logFiles (logPathOf commit555) =
      some ((emptyPipe.logFiles (logPathOf commit555)).getD [] ++
        [strip commit555.fieldText]) ∧
    (∀ p, p ≠ logPathOf commit555 →
      (onOkClick commit555 emptyPipe).logFiles p = emptyPipe.logFiles p) ∧
    (onOkClick commit555 emptyPipe).index = emptyPipe.index + 1 :=
  commit_success_effects commit555 emptyPipe rfl (by decide) (by decide)
    (Or.inl rfl)

/-- Claim C5: a commit attempt that does not complete — empty trimmed
field, marker-prefixed field, or an existing target the user declines to
overwrite — leaves the whole pipeline state (output files, log files,
cursor) unchanged. -/
theorem commit_blocked_no_change (ctx : CommitCtx) (st : PipeState)
    (hsel : ctx.selectionMode = false)
    (h : strip ctx.fieldText = "" ∨ startsWithParen (strip ctx.fieldText) = true ∨
      ((st.outputFiles (targetPath ctx)).isSome = true ∧
       ctx.userConfirmsOverwrite = false)) :
    onOkClick ctx st = st := by
  unfold onOkClick
  simp only [hsel, Bool.false_eq_true, if_false]
  rcases h with h | h | h
  · rw [if_pos (Or.inl h)]
  · rw [if_pos (Or.inr h)]
  · by_cases h12 : strip ctx.fieldText = "" ∨
        startsWithParen (strip ctx.fieldText) = true
    · rw [if_pos h12]
    · rw [if_neg h12, if_pos h]

/-- Witness for C5: a blank field blocks the commit and changes
nothing. -/
theorem commit_blocked_no_change_witness :
    onOkClick commitBlank emptyPipe = emptyPipe :=
  commit_blocked_no_change commitBlank emptyPipe rfl (Or.inl (by decide))

/-- Claim C6, counterexample: re-extraction is not side-effect free — one
run of `extract_text_from_rect` changes the image directory (it saves the
binarized region image), here starting from an empty directory. -/
theorem extract_writes_debug_image :
    (extractTextFromRect envNoDigits (fun _ => none)).1 ≠ (fun _ => none) := by
  intro h
  have h2 := congrFun h (debugImagePath envNoDigits.pdfName)
  simp [extractTextFromRect] at h2

/-- Claim C6, amended: re-extraction is deterministic — the candidate it
produces depends only on the document-and-rectangle environment, not on
any prior state — but it has exactly one side effect: it writes the
binarized region image to `ocr_get_image/<name>.png`, leaving every other
path untouched. -/
theorem extract_deterministic_with_debug_write (env : ExtractEnv)
    (im1 im2 : String → Option (List Nat)) :
    (extractTextFromRect env im1).2 = (extractTextFromRect env im2).2 ∧
    (extractTextFromRect env im1).2 = extractCandidate env.recText ∧
    (extractTextFromRect env im1).1 (debugImagePath env.pdfName) =
      some env.bwImage ∧
    ∀ p, p ≠ debugImagePath env.pdfName →
      (extractTextFromRect env im1).1 p = im1 p := by
  exact ⟨rfl, rfl, by simp [extractTextFromRect],
    fun p hp => by simp [extractTextFromRect, hp]⟩

/-- Claim C7: releasing a calibration drag (with the `OCR` section
present, as `load_config` guarantees for any configuration it wrote)
persists the new rectangle's four values (as `str(int(·))`) under the
`OCR` section, leaves every other section's lookups and every other `OCR`
key unchanged (a merge-write), keeps the section list intact, and re-runs
extraction on the current document with the new rectangle. -/
theorem recalibrate_merge_write (env : CalibEnv)
    (hsec : env.cfg.sections.contains "OCR" = true) :
    ∃ cfg' : ConfigFile,
      onMouseUp env = some (calibRect env,
        extractCandidate (env.recText (calibRect env)), cfg') ∧
      lookupCfg cfg' "OCR" "x" = some (toString (pyInt (calibRect env).x0)) ∧
      lookupCfg cfg' "OCR" "y" = some (toString (pyInt (calibRect env).y0)) ∧
      lookupCfg cfg' "OCR" "width" =
        some (toString (pyInt ((calibRect env).x1 - (calibRect env).x0))) ∧
      lookupCfg cfg' "OCR" "height" =
        some (toString (pyInt ((calibRect env).y1 - (calibRect env).y0))) ∧
      (∀ sec key, sec ≠ "OCR" →
        lookupCfg cfg' sec key = lookupCfg env.cfg sec key) ∧
      (∀ key, key ≠ "x" → key ≠ "y" → key ≠ "width" → key ≠ "height" →
        lookupCfg cfg' "OCR" key = lookupCfg env.cfg "OCR" key) ∧
      cfg'.sections = env.cfg.sections := by
  refine ⟨{ sections := env.cfg.sections,
            entries := setEntry (setEntry (setEntry (setEntry env.cfg.entries
              "OCR" "x" (toString (pyInt (calibRect env).x0)))
              "OCR" "y" (toString (pyInt (calibRect env).y0)))
              "OCR" "width"
                (toString (pyInt ((calibRect env).x1 - (calibRect env).x0))))
              "OCR" "height"
                (toString (pyInt ((calibRect env).y1 - (calibRect env).y0))) },
         ?_, ?_, ?_, ?_, ?_, ?_, ?_, rfl⟩
  · have hmem : "OCR" ∈ env.cfg.sections := by simpa using hsec
    unfold onMouseUp saveNewConfig setKeyCfg
    simp [hmem]
  · unfold lookupCfg
    rw [lookupEntries_setEntry_other _ _ _ _ _ _ (by simp),
        lookupEntries_setEntry_other _ _ _ _ _ _ (by simp),
        lookupEntries_setEntry_other _ _ _ _ _ _ (by simp)]
    exact lookupEntries_setEntry_same _ _ _ _
  · unfold lookupCfg
    rw [lookupEntries_setEntry_other _ _ _ _ _ _ (by simp),
        lookupEntries_setEntry_other _ _ _ _ _ _ (by simp)]
    exact lookupEntries_setEntry_same _ _ _ _
  · unfold lookupCfg
    rw [lookupEntries_setEntry_other _ _ _ _ _ _ (by simp)]
    exact lookupEntries_setEntry_same _ _ _ _
  · exact lookupEntries_setEntry_same _ _ _ _
  · intro sec key hne
    unfold lookupCfg
    rw [lookupEntries_setEntry_other _ _ _ _ _ _ (fun hh => hne hh.1),
        lookupEntries_setEntry_other _ _ _ _ _ _ (fun hh => hne hh.1),
        lookupEntries_setEntry_other _ _ _ _ _ _ (fun hh => hne hh.1),
        lookupEntries_setEntry_other _ _ _ _ _ _ (fun hh => hne hh.1)]
  · intro key h1 h2 h3 h4
    unfold lookupCfg
    rw [lookupEntries_setEntry_other _ _ _ _ _ _ (fun hh => h4 hh.2),
        lookupEntries_setEntry_other _ _ _ _ _ _ (fun hh => h3 hh.2),
        lookupEntries_setEntry_other _ _ _ _ _ _ (fun hh => h2 hh.2),
        lookupEntries_setEntry_other _ _ _ _ _ _ (fun hh => h1 hh.2)]

/-- Witness for C7: the spec's example — recalibrating to the rectangle
(10,10,110,60) (drag (10,10)→(110,60), scale 1, zero offsets, 200×100
page) against a configuration holding `Paths`, `OCR` and `Filter`
sections. -/
theorem recalibrate_merge_write_witness :
    ∃ cfg' : ConfigFile,
      onMouseUp calibExample = some (calibRect calibExample,
        extractCandidate (calibExample.recText (calibRect calibExample)), cfg') ∧
      lookupCfg cfg' "OCR" "x" =
        some (toString (pyInt (calibRect calibExample).x0)) ∧
      lookupCfg cfg' "OCR" "y" =
        some (toString (pyInt (calibRect calibExample).y0)) ∧
      lookupCfg cfg' "OCR" "width" =
        some (toString (pyInt
          ((calibRect calibExample).x1 - (calibRect calibExample).x0))) ∧
      lookupCfg cfg' "OCR" "height" =
        some (toString (pyInt
          ((calibRect calibExample).y1 - (calibRect calibExample).y0))) ∧
      (∀ sec key, sec ≠ "OCR" →
        lookupCfg cfg' sec key = lookupCfg calibExample.cfg sec key) ∧
      (∀ key, key ≠ "x" → key ≠ "y" → key ≠ "width" → key ≠ "height" →
        lookupCfg cfg' "OCR" key = lookupCfg calibExample.cfg "OCR" key) ∧
      cfg'.sections = calibExample.cfg.sections :=
  recalibrate_merge_write calibExample (by decide)

/-- Claim C8: when opening/extracting document i fails, the batch reports
the error, writes no output file and no log entry, and continues with
document i+1 — a bad document never halts the run. -/
theorem skip_error_document (docs : Nat → DocInfo) (n : Nat) (st : BatchState)
    (hi : st.index < n) (herr : (docs st.index).opensOk = false) :
    (processNextPdf docs n st).outputFiles = st.outputFiles ∧
    (processNextPdf docs n st).logFiles = st.logFiles ∧
    st.index ∈ (processNextPdf docs n st).reported ∧
    processNextPdf docs n st =
      processNextPdf docs n
        { st with index := st.index + 1,
                  reported := st.reported ++ [st.index] } := by
  have hskip : processNextPdf docs n st =
      processNextPdf docs n
        { st with index := st.index + 1,
                  reported := st.reported ++ [st.index] } := by
    rw [processNextPdf, if_neg (by omega)]
    dsimp only
    simp only [herr, Bool.false_eq_true, if_false]
  have hframe := processNextPdf_frame docs n (n - st.index) st le_rfl
  have hrep : st.index ∈ (processNextPdf docs n st).reported := by
    rw [hskip]
    obtain ⟨l, hl⟩ := processNextPdf_reported docs n (n - (st.index + 1))
      { st with index := st.index + 1, reported := st.reported ++ [st.index] }
      (show n - (st.index + 1) ≤ n - (st.index + 1) from le_rfl)
    rw [hl]
    simp
  exact ⟨hframe.1, hframe.2, hrep, hskip⟩

/-- Witness for C8: a two-document batch whose first document fails to
open. -/
theorem skip_error_document_witness :
    (processNextPdf docsFirstBad 2 emptyBatch).outputFiles =
      emptyBatch.outputFiles ∧
    (processNextPdf docsFirstBad 2 emptyBatch).logFiles =
      emptyBatch.logFiles ∧
    emptyBatch.index ∈ (processNextPdf docsFirstBad 2 emptyBatch).reported ∧
    processNextPdf docsFirstBad 2 emptyBatch =
      processNextPdf docsFirstBad 2
        { emptyBatch with index := emptyBatch.index + 1,
                          reported := emptyBatch.reported ++ [emptyBatch.index] } :=
  skip_error_document docsFirstBad 2 emptyBatch (by decide) rfl

end PdfRenamer
